import Mathlib

/-!
Shallow embedding of the simulation core of src/maindebug.py: player state,
physics integration, movement and dash control, swept collision resolution,
boundary clamping, coin pickup, damage bricks with an invincibility window,
and the per-frame orchestration of the main loop. Positions and velocities
are modelled as rationals; pygame rectangles carry integer coordinates
(pygame truncates float arguments toward zero when building a Rect).
-/

namespace Maturity

/-! ### Constants (src/maindebug.py lines 11-34) -/

def WORLD_WIDTH : ℚ := 4069
def WORLD_HEIGHT : ℚ := 2048
def SKYBOX_HEIGHT : ℚ := 50
def GRAVITY : ℚ := 0.2
def MAX_FALL_SPEED : ℚ := 10
def PLAYER_SIZE : ℤ := 15
def JUMP_FORCE : ℚ := -5

/-! ### Geometry: pygame.Rect with integer coordinates -/

structure PRect where
  x : ℤ
  y : ℤ
  w : ℤ
  h : ℤ
deriving DecidableEq, Repr

def PRect.left (r : PRect) : ℤ := r.x
def PRect.right (r : PRect) : ℤ := r.x + r.w
def PRect.top (r : PRect) : ℤ := r.y
def PRect.bottom (r : PRect) : ℤ := r.y + r.h

/-- Truncation toward zero, as pygame applies to float arguments of Rect. -/
def ratTrunc (q : ℚ) : ℤ := if 0 ≤ q then ⌊q⌋ else ⌈q⌉

/-- Minimum of two rationals, as the Python builtin min computes it. -/
def ratMin (a b : ℚ) : ℚ := if a ≤ b then a else b

/-- Absolute value of a rational, as the Python builtin abs computes it. -/
def ratAbs (q : ℚ) : ℚ := if q < 0 then -q else q

/-- Intersection test of pygame.Rect.colliderect: strict overlap on both axes. -/
def PRect.colliderect (a b : PRect) : Bool :=
  decide (a.left < b.right) && decide (a.right > b.left) &&
  decide (a.top < b.bottom) && decide (a.bottom > b.top)

/-! ### Entities -/

structure Platform where
  rect : PRect
deriving DecidableEq, Repr

structure Coin where
  rect : PRect
  collected : Bool
deriving DecidableEq, Repr

structure DamageBrick where
  rect : PRect
  damage : ℤ
deriving DecidableEq, Repr

/-- The player dictionary built in main (src/maindebug.py lines 438-454). -/
structure Player where
  pos_x : ℚ
  pos_y : ℚ
  y_velocity : ℚ
  x_velocity : ℚ
  is_grounded : Bool
  last_dash : ℤ
  speed : ℚ
  dash_speed : ℚ
  dash_cooldown : ℤ
  is_dashing : Bool
  dash_timer : ℤ
  facing_right : Bool
  dash_key_pressed : Bool
  hp : ℤ
  is_invincible : Bool
  last_damage_time : ℤ
deriving DecidableEq, Repr

/-- The per-frame keyboard snapshot: the keys the core reads. -/
structure Keys where
  lshift : Bool
  left : Bool
  right : Bool
  a : Bool
  d : Bool
  space : Bool
deriving DecidableEq, Repr

/-- Rectangle built from the player position, pygame.Rect(pos, size, size). -/
def playerRect (p : Player) : PRect :=
  ⟨ratTrunc p.pos_x, ratTrunc p.pos_y, PLAYER_SIZE, PLAYER_SIZE⟩

/-! ### apply_physics (lines 73-85) -/

def apply_physics (p : Player) : Player :=
  let p1 :=
    if ¬p.is_dashing then
      if ¬p.is_grounded then
        { p with y_velocity := ratMin (p.y_velocity + GRAVITY) MAX_FALL_SPEED }
      else p
    else
      let q := { p with dash_timer := p.dash_timer - 1 }
      if q.dash_timer ≤ 0 then { q with is_dashing := false, x_velocity := 0 } else q
  { p1 with pos_y := p1.pos_y + p1.y_velocity }

/-! ### constrain_player_to_world (lines 87-104) -/

def constrain_player_to_world (p : Player) : Player :=
  let p1 :=
    if p.pos_x < 0 then { p with pos_x := 0, x_velocity := 0 }
    else if p.pos_x > WORLD_WIDTH - (PLAYER_SIZE : ℚ) then
      { p with pos_x := WORLD_WIDTH - (PLAYER_SIZE : ℚ), x_velocity := 0 }
    else p
  if p1.pos_y < SKYBOX_HEIGHT then { p1 with pos_y := SKYBOX_HEIGHT, y_velocity := 0 }
  else if p1.pos_y > WORLD_HEIGHT - (PLAYER_SIZE : ℚ) then
    { p1 with pos_y := WORLD_HEIGHT - (PLAYER_SIZE : ℚ), y_velocity := 0, is_grounded := true }
  else p1

/-! ### move_player (lines 106-146); `now` is the pygame.time.get_ticks reading -/

def move_player (p : Player) (keys : Keys) (now : ℤ) : Player :=
  if p.is_dashing then { p with pos_x := p.pos_x + p.x_velocity }
  else
    let p1 :=
      if keys.lshift then
        let pd :=
          if ¬p.dash_key_pressed ∧ now - p.last_dash ≥ p.dash_cooldown then
            if keys.right ∨ keys.d then
              { p with is_dashing := true, dash_timer := 15, x_velocity := p.dash_speed,
                       facing_right := true, last_dash := now }
            else if keys.left ∨ keys.a then
              { p with is_dashing := true, dash_timer := 15, x_velocity := -p.dash_speed,
                       facing_right := false, last_dash := now }
            else p
          else p
        { pd with dash_key_pressed := true }
      else { p with dash_key_pressed := false }
    let p2 :=
      if keys.left ∨ keys.a then { p1 with pos_x := p1.pos_x - p1.speed, facing_right := false }
      else p1
    let p3 :=
      if keys.right ∨ keys.d then { p2 with pos_x := p2.pos_x + p2.speed, facing_right := true }
      else p2
    if keys.space ∧ p3.is_grounded then { p3 with y_velocity := JUMP_FORCE } else p3

/-! ### handle_collisions (lines 150-211)

The player rectangle and previous_bottom are computed once before the loop;
the y_velocity tests inside the guards read the live player state. -/

def topCond (r : PRect) (prevBottom : ℚ) (p : Player) (pl : Platform) : Prop :=
  prevBottom ≤ (pl.rect.top : ℚ) ∧ r.bottom ≥ pl.rect.top ∧
  r.right > pl.rect.left ∧ r.left < pl.rect.right ∧ p.y_velocity > 0

instance (r : PRect) (prevBottom : ℚ) (p : Player) (pl : Platform) :
    Decidable (topCond r prevBottom p pl) :=
  inferInstanceAs (Decidable (prevBottom ≤ (pl.rect.top : ℚ) ∧ r.bottom ≥ pl.rect.top ∧
    r.right > pl.rect.left ∧ r.left < pl.rect.right ∧ p.y_velocity > 0))

def bottomCond (r : PRect) (p : Player) (pl : Platform) : Prop :=
  r.top < pl.rect.bottom ∧ (r.top : ℚ) ≥ (pl.rect.bottom : ℚ) - ratAbs p.y_velocity ∧
  r.right > pl.rect.left ∧ r.left < pl.rect.right ∧ p.y_velocity < 0

instance (r : PRect) (p : Player) (pl : Platform) : Decidable (bottomCond r p pl) :=
  inferInstanceAs (Decidable (r.top < pl.rect.bottom ∧
    (r.top : ℚ) ≥ (pl.rect.bottom : ℚ) - ratAbs p.y_velocity ∧
    r.right > pl.rect.left ∧ r.left < pl.rect.right ∧ p.y_velocity < 0))

def sideLeftCond (r : PRect) (pl : Platform) : Prop :=
  r.right > pl.rect.left ∧ r.left < pl.rect.left ∧
  r.bottom > pl.rect.top + 5 ∧ r.top < pl.rect.bottom - 5

instance (r : PRect) (pl : Platform) : Decidable (sideLeftCond r pl) :=
  inferInstanceAs (Decidable (r.right > pl.rect.left ∧ r.left < pl.rect.left ∧
    r.bottom > pl.rect.top + 5 ∧ r.top < pl.rect.bottom - 5))

def sideRightCond (r : PRect) (pl : Platform) : Prop :=
  r.left < pl.rect.right ∧ r.right > pl.rect.right ∧
  r.bottom > pl.rect.top + 5 ∧ r.top < pl.rect.bottom - 5

instance (r : PRect) (pl : Platform) : Decidable (sideRightCond r pl) :=
  inferInstanceAs (Decidable (r.left < pl.rect.right ∧ r.right > pl.rect.right ∧
    r.bottom > pl.rect.top + 5 ∧ r.top < pl.rect.bottom - 5))

/-- The fall-through part of one platform iteration of handle_collisions:
the first bottom-collision elif (lines 172-181), then the side-collision
if-elif chain (lines 183-199) whose last elif is the second, duplicated
bottom-collision branch (lines 202-211). -/
def collideBody (r : PRect) (p : Player) (pl : Platform) : Player :=
  let p1 :=
    if bottomCond r p pl then { p with pos_y := (pl.rect.bottom : ℚ), y_velocity := 0 }
    else p
  if sideLeftCond r pl then
    { p1 with pos_x := (pl.rect.left : ℚ) - (PLAYER_SIZE : ℚ), x_velocity := 0 }
  else if sideRightCond r pl then
    { p1 with pos_x := (pl.rect.right : ℚ), x_velocity := 0 }
  else if bottomCond r p1 pl then
    { p1 with pos_y := (pl.rect.bottom : ℚ), y_velocity := 0 }
  else p1

/-- The platform loop of handle_collisions. A landing (top collision)
breaks out of the loop; the remaining branches fall through to the next
platform. -/
def collideLoop (r : PRect) (prevBottom : ℚ) : Player → List Platform → Player
  | p, [] => p
  | p, pl :: rest =>
    if topCond r prevBottom p pl then
      { p with pos_y := (pl.rect.top : ℚ) - (PLAYER_SIZE : ℚ), y_velocity := 0,
               is_grounded := true }
    else
      collideLoop r prevBottom (collideBody r p pl) rest

def handle_collisions (p : Player) (platforms : List Platform) : Player :=
  let p0 := { p with is_grounded := false }
  let r := playerRect p0
  let prevBottom : ℚ := (r.bottom : ℚ) - p0.y_velocity
  collideLoop r prevBottom p0 platforms

/-! ### handle_coin_collection (lines 259-266) -/

def coinLoop (r : PRect) : List Coin → ℕ → List Coin × ℕ
  | [], score => ([], score)
  | c :: cs, score =>
    if ¬c.collected ∧ r.colliderect c.rect then
      let rest := coinLoop r cs (score + 1)
      ({ c with collected := true } :: rest.1, rest.2)
    else
      let rest := coinLoop r cs score
      (c :: rest.1, rest.2)

def handle_coin_collection (p : Player) (coins : List Coin) (score : ℕ) : List Coin × ℕ :=
  coinLoop (playerRect p) coins score

/-! ### handle_damage (the second definition, lines 293-301, which shadows
the first) and handle_damage_bricks (lines 286-291) -/

def handle_damage (p : Player) (amount : ℤ) (now : ℤ) : Player :=
  if ¬p.is_invincible then
    let p1 := { p with hp := p.hp - amount }
    let p2 := if p1.hp < 0 then { p1 with hp := 0 } else p1
    { p2 with is_invincible := true, last_damage_time := now }
  else p

def bricksLoop (r : PRect) (now : ℤ) : Player → List DamageBrick → Player
  | p, [] => p
  | p, b :: bs =>
    bricksLoop r now (if r.colliderect b.rect then handle_damage p b.damage now else p) bs

def handle_damage_bricks (p : Player) (bricks : List DamageBrick) (now : ℤ) : Player :=
  bricksLoop (playerRect p) now p bricks

/-- Invincibility timeout check inlined in the main loop (lines 529-531). -/
def invincibility_reset (p : Player) (now : ℤ) : Player :=
  if p.is_invincible then
    (if now - p.last_damage_time > 1000 then { p with is_invincible := false } else p)
  else p

/-! ### Session state and the frame loop of main (lines 429-567) -/

def init_player : Player :=
  { pos_x := 200, pos_y := 200, y_velocity := 0, x_velocity := 0, is_grounded := false,
    last_dash := 0, speed := 3.5, dash_speed := 9, dash_cooldown := 500,
    is_dashing := false, dash_timer := 0, facing_right := true, dash_key_pressed := false,
    hp := 100, is_invincible := false, last_damage_time := 0 }

def init_coins : List Coin :=
  [⟨⟨300, 400, 10, 10⟩, false⟩, ⟨⟨500, 500, 10, 10⟩, false⟩,
   ⟨⟨600, 300, 10, 10⟩, false⟩, ⟨⟨700, 200, 10, 10⟩, false⟩]

def damage_bricks : List DamageBrick := [⟨⟨200, 150, 50, 50⟩, 25⟩]

structure GState where
  player : Player
  coins : List Coin
  score : ℕ
  game_over : Bool
deriving DecidableEq, Repr

def init_state : GState :=
  { player := init_player, coins := init_coins, score := 0, game_over := false }

/-- One iteration of the while loop of main for a given key snapshot and
clock reading: on a game-over frame the simulation state is untouched;
otherwise movement, physics, collisions and the world clamp run, then the
death check (which skips the rest of the frame), then damage bricks, the
invincibility timeout and coin collection. Camera update and drawing do not
touch the simulation state. -/
def stepFrame (platforms : List Platform) (keys : Keys) (now : ℤ) (s : GState) : GState :=
  if s.game_over then s
  else
    let p := move_player s.player keys now
    let p := apply_physics p
    let p := handle_collisions p platforms
    let p := constrain_player_to_world p
    if p.hp ≤ 0 then { s with player := p, game_over := true }
    else
      let p := handle_damage_bricks p damage_bricks now
      let p := invincibility_reset p now
      let cs := handle_coin_collection p s.coins s.score
      { player := p, coins := cs.1, score := cs.2, game_over := s.game_over }

def runFrames (platforms : List Platform) : List (Keys × ℤ) → GState → GState
  | [], s => s
  | (k, t) :: rest, s => runFrames platforms rest (stepFrame platforms k t s)

/-- States of a session reachable from the start, for a given level
(the platform list is external input loaded from level.json). -/
inductive Reachable (platforms : List Platform) : GState → Prop
  | init : Reachable platforms init_state
  | step : ∀ {s : GState} (keys : Keys) (now : ℤ),
      Reachable platforms s → Reachable platforms (stepFrame platforms keys now s)

/-! ### Theorem-side definitions -/

/-- The landing condition of the claim about top collisions: the swept
previous bottom is above the platform top, the current bottom at or below
it, and the horizontal extents strictly overlap. -/
def landCond (r : PRect) (prevBottom : ℚ) (pl : Platform) : Prop :=
  prevBottom ≤ (pl.rect.top : ℚ) ∧ r.bottom ≥ pl.rect.top ∧
  r.right > pl.rect.left ∧ r.left < pl.rect.right

instance (r : PRect) (prevBottom : ℚ) (pl : Platform) : Decidable (landCond r prevBottom pl) :=
  inferInstanceAs (Decidable (prevBottom ≤ (pl.rect.top : ℚ) ∧ r.bottom ≥ pl.rect.top ∧
    r.right > pl.rect.left ∧ r.left < pl.rect.right))

/-- Variant of collideBody with the second, duplicated bottom-collision
elif branch (lines 202-211) removed. -/
def collideBodyND (r : PRect) (p : Player) (pl : Platform) : Player :=
  let p1 :=
    if bottomCond r p pl then { p with pos_y := (pl.rect.bottom : ℚ), y_velocity := 0 }
    else p
  if sideLeftCond r pl then
    { p1 with pos_x := (pl.rect.left : ℚ) - (PLAYER_SIZE : ℚ), x_velocity := 0 }
  else if sideRightCond r pl then
    { p1 with pos_x := (pl.rect.right : ℚ), x_velocity := 0 }
  else p1

def collideLoopND (r : PRect) (prevBottom : ℚ) : Player → List Platform → Player
  | p, [] => p
  | p, pl :: rest =>
    if topCond r prevBottom p pl then
      { p with pos_y := (pl.rect.top : ℚ) - (PLAYER_SIZE : ℚ), y_velocity := 0,
               is_grounded := true }
    else
      collideLoopND r prevBottom (collideBodyND r p pl) rest

/-- Variant of handle_collisions with the duplicated bottom-collision
branch removed. -/
def handle_collisions_no_dead (p : Player) (platforms : List Platform) : Player :=
  let p0 := { p with is_grounded := false }
  let r := playerRect p0
  let prevBottom : ℚ := (r.bottom : ℚ) - p0.y_velocity
  collideLoopND r prevBottom p0 platforms

/-- Number of coins whose collected flag is set. -/
def countCollected (coins : List Coin) : ℕ := (coins.filter (fun c => c.collected)).length

/-- Iterated coin collection over a sequence of per-frame player states. -/
def runCoinFrames : List Player → List Coin × ℕ → List Coin × ℕ
  | [], cs => cs
  | p :: ps, cs => runCoinFrames ps (handle_coin_collection p cs.1 cs.2)

/-! ### Concrete scenario data -/

/-- A level consisting of one tall wall to the right of the start position. -/
def c1_platforms : List Platform := [⟨⟨300, 50, 50, 1900⟩⟩]

def noKeys : Keys := ⟨false, false, false, false, false, false⟩

def dashRightKeys : Keys := { noKeys with lshift := true, d := true }

/-- Input trace at 17 ms per frame: no keys except frame 30, where the dash
key and the right key are pressed (tick 510, past the 500 ms cooldown). -/
def c1_inputs : List (Keys × ℤ) :=
  (List.range 41).map (fun f => (if f == 30 then dashRightKeys else noKeys, 17 * (f : ℤ)))

def c1_bad : GState := runFrames c1_platforms c1_inputs init_state

/-- Damage-and-invincibility part of one frame, in main-loop order:
handle_damage_bricks (line 526), then the invincibility timeout (529-531). -/
def damage_frame (bricks : List DamageBrick) (now : ℤ) (p : Player) : Player :=
  invincibility_reset (handle_damage_bricks p bricks now) now

def run_damage (bricks : List DamageBrick) : List ℤ → Player → Player
  | [], p => p
  | t :: ts, p => run_damage bricks ts (damage_frame bricks t p)

/-- The hp value after each frame of a damage run. -/
def damage_hps (bricks : List DamageBrick) : List ℤ → Player → List ℤ
  | [], _ => []
  | t :: ts, p => (damage_frame bricks t p).hp :: damage_hps bricks ts (damage_frame bricks t p)

/-- Number of strict decreases between adjacent entries of a list. -/
def countDrops : List ℤ → ℕ
  | [] => 0
  | [_] => 0
  | a :: b :: rest => (if b < a then 1 else 0) + countDrops (b :: rest)

/-- A player standing inside the session damage brick at (200, 150, 50, 50). -/
def c5_player : Player := { init_player with pos_x := 210, pos_y := 160 }

/-- Three seconds of frame clock readings at 17 ms per frame. -/
def c5_ticks : List ℤ := (List.range 177).map (fun i => 17 * (i : ℤ))

/-- Slice of the 17 ms frame clock, frames a to b - 1. -/
def c5_chunk (a b : ℕ) : List ℤ := (List.range (b - a)).map (fun i => 17 * ((a + i : ℕ) : ℤ))

/-! ### Proofs -/

section Proofs

attribute [local semireducible] Rat.add Rat.sub Rat.mul Rat.inv Rat.ofScientific

lemma ratMin_eq_min (a b : ℚ) : ratMin a b = min a b := by
  rw [ratMin, min_def]

lemma ratAbs_eq_abs (q : ℚ) : ratAbs q = |q| := by
  rw [ratAbs, abs]
  rcases lt_or_ge q 0 with h | h
  · rw [if_pos h, sup_eq_right.2 (by linarith)]
  · rw [if_neg (not_lt.2 h), sup_eq_left.2 (by linarith)]

lemma collideBody_eq_noDead (r : PRect) (p : Player) (pl : Platform) :
    collideBody r p pl = collideBodyND r p pl := by
  unfold collideBody collideBodyND
  by_cases hb : bottomCond r p pl
  · simp only [hb, if_true]
    by_cases h1 : sideLeftCond r pl
    · simp [h1]
    · by_cases h2 : sideRightCond r pl
      · simp [h1, h2]
      · have hdead : ¬ bottomCond r { p with pos_y := (pl.rect.bottom : ℚ), y_velocity := 0 } pl := by
          intro hc
          exact absurd hc.2.2.2.2 (by simp)
        simp [h1, h2, hdead]
  · simp [hb]

lemma collideLoop_eq_noDead (r : PRect) (pb : ℚ) (ps : List Platform) :
    ∀ p : Player, collideLoop r pb p ps = collideLoopND r pb p ps := by
  induction ps with
  | nil => intro p; rfl
  | cons pl rest ih =>
    intro p
    by_cases ht : topCond r pb p pl
    · simp [collideLoop, collideLoopND, ht]
    · simp [collideLoop, collideLoopND, ht, collideBody_eq_noDead, ih]

/-- C6: the second, duplicated bottom-collision elif branch of the collision
resolver never executes: for every player state and platform list, removing
it yields a function extensionally equal to handle_collisions. In fact the
branch is dead for all states, reachable or not: when it is evaluated, its
guard requires y_velocity < 0, but either the first bottom branch already
zeroed y_velocity or the identical guard just failed on the same values. -/
theorem dead_branch_equivalence (p : Player) (platforms : List Platform) :
    handle_collisions p platforms = handle_collisions_no_dead p platforms := by
  unfold handle_collisions handle_collisions_no_dead
  exact collideLoop_eq_noDead _ _ _ _

/-- C3: the physics integrator characterized field by field: while dashing
it decrements the dash timer, ends the dash (clearing is_dashing and
zeroing x_velocity) once the decremented timer is at or below zero, and
applies no gravity; otherwise, when airborne, it adds GRAVITY (0.2) to
y_velocity clamped at MAX_FALL_SPEED (10); in all cases it then adds the
updated y_velocity to position y, and it mutates no other field. -/
theorem physics_characterization (p : Player) :
    (apply_physics p).pos_y = p.pos_y + (apply_physics p).y_velocity ∧
    (apply_physics p).y_velocity =
      (if p.is_dashing = false ∧ p.is_grounded = false
       then min (p.y_velocity + 0.2) 10 else p.y_velocity) ∧
    (apply_physics p).dash_timer =
      (if p.is_dashing = true then p.dash_timer - 1 else p.dash_timer) ∧
    (apply_physics p).is_dashing = (p.is_dashing && decide (0 < p.dash_timer - 1)) ∧
    (apply_physics p).x_velocity =
      (if p.is_dashing = true ∧ p.dash_timer - 1 ≤ 0 then 0 else p.x_velocity) ∧
    (apply_physics p).pos_x = p.pos_x ∧
    (apply_physics p).is_grounded = p.is_grounded ∧
    (apply_physics p).last_dash = p.last_dash ∧
    (apply_physics p).speed = p.speed ∧
    (apply_physics p).dash_speed = p.dash_speed ∧
    (apply_physics p).dash_cooldown = p.dash_cooldown ∧
    (apply_physics p).facing_right = p.facing_right ∧
    (apply_physics p).dash_key_pressed = p.dash_key_pressed ∧
    (apply_physics p).hp = p.hp ∧
    (apply_physics p).is_invincible = p.is_invincible ∧
    (apply_physics p).last_damage_time = p.last_damage_time := by
  unfold apply_physics
  rcases hd : p.is_dashing with _ | _
  · rcases hg : p.is_grounded with _ | _
    · simp [hd, hg, ratMin_eq_min, GRAVITY, MAX_FALL_SPEED]
    · simp [hd, hg]
  · by_cases htm : p.dash_timer - 1 ≤ 0
    · have : ¬ (0 < p.dash_timer - 1) := by omega
      simp [hd, htm, this]
    · have : (0 < p.dash_timer - 1) := by omega
      simp [hd, htm, this]

lemma bricksLoop_invincible (r : PRect) (now : ℤ) :
    ∀ (bricks : List DamageBrick) (p : Player), p.is_invincible = true →
      bricksLoop r now p bricks = p := by
  intro bricks
  induction bricks with
  | nil => intro p _; rfl
  | cons b bs ih =>
    intro p hp
    have hnoop : handle_damage p b.damage now = p := by
      unfold handle_damage
      simp [hp]
    by_cases hc : r.colliderect b.rect
    · simp [bricksLoop, hc, hnoop, ih p hp]
    · simp [bricksLoop, hc, ih p hp]

/-- C4: damage application is gated on invincibility. When is_invincible is
set, handle_damage is the identity and a damage-brick pass leaves the
player untouched; otherwise hp drops by exactly the amount, floored at 0,
invincibility turns on, and the damage timestamp is recorded. -/
theorem damage_invincibility_gating (p : Player) (amount now : ℤ) (bricks : List DamageBrick) :
    handle_damage p amount now =
      (if p.is_invincible = true then p
       else { p with hp := max (p.hp - amount) 0, is_invincible := true,
                     last_damage_time := now }) ∧
    (p.is_invincible = true → handle_damage_bricks p bricks now = p) := by
  constructor
  · unfold handle_damage
    by_cases hi : p.is_invincible
    · simp [hi]
    · by_cases hneg : p.hp - amount < 0
      · have : max (p.hp - amount) 0 = 0 := by omega
        simp [hi, hneg, this]
      · have : max (p.hp - amount) 0 = p.hp - amount := by omega
        simp [hi, hneg, this]
  · intro hi
    unfold handle_damage_bricks
    exact bricksLoop_invincible _ _ _ _ hi

lemma clamp_lo {lo hi x : ℚ} (h : x < lo) (hlh : lo ≤ hi) : max lo (min x hi) = lo := by
  rw [min_eq_left (by linarith), max_eq_left (by linarith)]

lemma clamp_hi {lo hi x : ℚ} (h : x > hi) (hlh : lo ≤ hi) : max lo (min x hi) = hi := by
  rw [min_eq_right (by linarith), max_eq_right (by linarith)]

lemma clamp_mid {lo hi x : ℚ} (h1 : ¬ x < lo) (h2 : ¬ x > hi) : max lo (min x hi) = x := by
  rw [min_eq_left (by linarith), max_eq_right (by linarith)]

lemma cast_player_size : ((PLAYER_SIZE : ℤ) : ℚ) = 15 := by norm_num [PLAYER_SIZE]

lemma constrain_pos_x (p : Player) :
    (constrain_player_to_world p).pos_x = max 0 (min p.pos_x (WORLD_WIDTH - 15)) := by
  have hW : (0:ℚ) ≤ WORLD_WIDTH - 15 := by norm_num [WORLD_WIDTH]
  unfold constrain_player_to_world
  simp only [cast_player_size]
  split_ifs with h1 h2 h3 h4 h5 h6 h7 h8 h9 h10 h11 h12 <;>
    first
      | exact (clamp_lo (by assumption) hW).symm
      | exact (clamp_hi (by assumption) hW).symm
      | (apply (clamp_mid (by assumption) (by assumption)).symm)

lemma constrain_pos_y (p : Player) :
    (constrain_player_to_world p).pos_y = max SKYBOX_HEIGHT (min p.pos_y (WORLD_HEIGHT - 15)) := by
  have hH : SKYBOX_HEIGHT ≤ WORLD_HEIGHT - (15:ℚ) := by norm_num [SKYBOX_HEIGHT, WORLD_HEIGHT]
  unfold constrain_player_to_world
  simp only [cast_player_size]
  split_ifs with h1 h2 h3 h4 h5 h6 h7 h8 h9 h10 h11 h12 <;>
    first
      | exact (clamp_lo (by assumption) hH).symm
      | exact (clamp_hi (by assumption) hH).symm
      | (apply (clamp_mid (by assumption) (by assumption)).symm)

lemma constrain_x_velocity (p : Player) :
    (constrain_player_to_world p).x_velocity =
      (if p.pos_x < 0 ∨ p.pos_x > WORLD_WIDTH - 15 then 0 else p.x_velocity) := by
  unfold constrain_player_to_world
  simp only [cast_player_size]
  split_ifs with h1 h2 h3 h4 h5 h6 h7 h8 h9 h10 h11 h12 <;> first | rfl | tauto

lemma constrain_y_velocity (p : Player) :
    (constrain_player_to_world p).y_velocity =
      (if p.pos_y < SKYBOX_HEIGHT ∨ p.pos_y > WORLD_HEIGHT - 15 then 0 else p.y_velocity) := by
  unfold constrain_player_to_world
  simp only [cast_player_size]
  split_ifs with h1 h2 h3 h4 h5 h6 h7 h8 h9 h10 h11 h12 <;> first | rfl | tauto

lemma constrain_is_grounded (p : Player) :
    (constrain_player_to_world p).is_grounded =
      (p.is_grounded || decide (p.pos_y > WORLD_HEIGHT - 15)) := by
  unfold constrain_player_to_world
  simp only [cast_player_size]
  split_ifs with h1 h2 h3 h4 h5 h6 h7 h8 h9 h10 h11 h12 <;> simp_all <;>
    (intro h; exfalso; norm_num [SKYBOX_HEIGHT, WORLD_HEIGHT] at *; linarith)

/-- C7: the boundary constraint clamps position x into the interval from 0
to WORLD_WIDTH - 15 and position y into the interval from SKYBOX_HEIGHT to
WORLD_HEIGHT - 15, zeroes the matching velocity component exactly when the
corresponding bound is violated before clamping, sets is_grounded exactly
when the floor bound is hit (leaving it unchanged otherwise), and changes
no other player field. -/
theorem boundary_clamp_characterization (p : Player) :
    (constrain_player_to_world p).pos_x = max 0 (min p.pos_x (WORLD_WIDTH - 15)) ∧
    (constrain_player_to_world p).pos_y =
      max SKYBOX_HEIGHT (min p.pos_y (WORLD_HEIGHT - 15)) ∧
    (constrain_player_to_world p).x_velocity =
      (if p.pos_x < 0 ∨ p.pos_x > WORLD_WIDTH - 15 then 0 else p.x_velocity) ∧
    (constrain_player_to_world p).y_velocity =
      (if p.pos_y < SKYBOX_HEIGHT ∨ p.pos_y > WORLD_HEIGHT - 15 then 0 else p.y_velocity) ∧
    (constrain_player_to_world p).is_grounded =
      (p.is_grounded || decide (p.pos_y > WORLD_HEIGHT - 15)) ∧
    (constrain_player_to_world p).last_dash = p.last_dash ∧
    (constrain_player_to_world p).speed = p.speed ∧
    (constrain_player_to_world p).dash_speed = p.dash_speed ∧
    (constrain_player_to_world p).dash_cooldown = p.dash_cooldown ∧
    (constrain_player_to_world p).is_dashing = p.is_dashing ∧
    (constrain_player_to_world p).dash_timer = p.dash_timer ∧
    (constrain_player_to_world p).facing_right = p.facing_right ∧
    (constrain_player_to_world p).dash_key_pressed = p.dash_key_pressed ∧
    (constrain_player_to_world p).hp = p.hp ∧
    (constrain_player_to_world p).is_invincible = p.is_invincible ∧
    (constrain_player_to_world p).last_damage_time = p.last_damage_time := by
  refine ⟨constrain_pos_x p, constrain_pos_y p, constrain_x_velocity p,
    constrain_y_velocity p, constrain_is_grounded p, ?_, ?_, ?_, ?_, ?_, ?_, ?_, ?_, ?_, ?_, ?_⟩ <;>
    (unfold constrain_player_to_world; simp only [cast_player_size]; split_ifs <;> rfl)

/-- C8: the dash controller never starts a dash while fewer than 500 ms
have passed since last_dash, however the dash key is pressed, and a dash
starts only on a rising edge of the dash key (not held the previous frame)
with a directional key down; a trigger sets is_dashing, a 15 frame dash
timer, horizontal velocity of magnitude dash_speed (9), and stamps
last_dash with the current clock reading. -/
theorem dash_cooldown_and_trigger (p : Player) (keys : Keys) (now : ℤ)
    (hcd : p.dash_cooldown = 500) (hds : p.dash_speed = 9) :
    (now - p.last_dash < 500 → (move_player p keys now).is_dashing = p.is_dashing) ∧
    (p.is_dashing = false → (move_player p keys now).is_dashing = true →
      p.dash_key_pressed = false ∧ keys.lshift = true ∧
      (keys.right = true ∨ keys.d = true ∨ keys.left = true ∨ keys.a = true) ∧
      now - p.last_dash ≥ 500 ∧
      (move_player p keys now).dash_timer = 15 ∧
      ((move_player p keys now).x_velocity = 9 ∨ (move_player p keys now).x_velocity = -9) ∧
      (move_player p keys now).last_dash = now) := by
  constructor
  · intro hlt
    by_cases hd : p.is_dashing = true
    · simp [move_player, hd]
    · have hcfail : ¬(¬p.dash_key_pressed = true ∧ now - p.last_dash ≥ p.dash_cooldown) := by
        rintro ⟨-, hge⟩
        rw [hcd] at hge
        omega
      simp [move_player, hd, hcfail, apply_ite Player.is_dashing]
      intro _ hkp hge
      exact absurd ⟨by simp [hkp], hge⟩ hcfail
  · intro hnd htrig
    unfold move_player at htrig ⊢
    simp only [hnd, Bool.false_eq_true, if_false] at htrig ⊢
    by_cases hls : keys.lshift = true
    case neg =>
      exfalso
      simp [hls, hnd, apply_ite Player.is_dashing] at htrig
    case pos =>
      by_cases hc : ¬p.dash_key_pressed = true ∧ now - p.last_dash ≥ p.dash_cooldown
      case neg =>
        exfalso
        simp [hls, hc, hnd, apply_ite Player.is_dashing] at htrig
        exact hc ⟨by simp [htrig.1.1], htrig.1.2⟩
      case pos =>
        obtain ⟨hc1, hc2⟩ := hc
        by_cases hrd : keys.right = true ∨ keys.d = true
        case pos =>
          refine ⟨by simpa using hc1, hls, by tauto, by omega, ?_, ?_, ?_⟩
          · simp [hls, hc1, hc2, hrd, apply_ite Player.dash_timer]
          · refine Or.inl ?_
            simp [hls, hc1, hc2, hrd, hds, apply_ite Player.x_velocity]
          · simp [hls, hc1, hc2, hrd, apply_ite Player.last_dash]
        case neg =>
          by_cases hla : keys.left = true ∨ keys.a = true
          case pos =>
            refine ⟨by simpa using hc1, hls, by tauto, by omega, ?_, ?_, ?_⟩
            · simp [hls, hc1, hc2, hrd, hla, apply_ite Player.dash_timer]
            · refine Or.inr ?_
              simp [hls, hc1, hc2, hrd, hla, hds, apply_ite Player.x_velocity]
            · simp [hls, hc1, hc2, hrd, hla, apply_ite Player.last_dash]
          case neg =>
            exfalso
            simp [hls, hc1, hc2, hrd, hla, hnd, apply_ite Player.is_dashing] at htrig

lemma topCond_iff (r : PRect) (pb : ℚ) (p : Player) (pl : Platform) :
    topCond r pb p pl ↔ landCond r pb pl ∧ p.y_velocity > 0 := by
  unfold topCond landCond
  tauto

lemma collideBody_keeps_y (r : PRect) (p : Player) (pl : Platform)
    (h : ¬ p.y_velocity < 0) :
    (collideBody r p pl).pos_y = p.pos_y ∧ (collideBody r p pl).y_velocity = p.y_velocity ∧
    (collideBody r p pl).is_grounded = p.is_grounded := by
  have hb : ¬ bottomCond r p pl := fun hc => h hc.2.2.2.2
  unfold collideBody
  simp only [hb, if_false]
  by_cases h1 : sideLeftCond r pl
  · simp [h1]
  · by_cases h2 : sideRightCond r pl
    · simp [h1, h2]
    · simp [h1, h2, hb]

lemma collideLoop_no_land (r : PRect) (pb : ℚ) (ps : List Platform) :
    ∀ p : Player, 0 < p.y_velocity → (∀ pl ∈ ps, ¬ landCond r pb pl) →
      (collideLoop r pb p ps).pos_y = p.pos_y ∧
      (collideLoop r pb p ps).y_velocity = p.y_velocity ∧
      (collideLoop r pb p ps).is_grounded = p.is_grounded := by
  induction ps with
  | nil => intro p _ _; exact ⟨rfl, rfl, rfl⟩
  | cons pl rest ih =>
    intro p hv hnl
    have ht : ¬ topCond r pb p pl := fun hc =>
      hnl pl (List.mem_cons_self pl rest) ((topCond_iff r pb p pl).1 hc).1
    have hkeep := collideBody_keeps_y r p pl (by linarith)
    have hrest := ih (collideBody r p pl) (hkeep.2.1 ▸ hv)
      (fun q hq => hnl q (List.mem_cons_of_mem pl hq))
    simp only [collideLoop, ht, if_false]
    exact ⟨hrest.1.trans hkeep.1, hrest.2.1.trans hkeep.2.1, hrest.2.2.trans hkeep.2.2⟩

lemma collideLoop_land (r : PRect) (pb : ℚ) (pl : Platform) (l2 : List Platform)
    (hl : landCond r pb pl) :
    ∀ (l1 : List Platform) (p : Player), 0 < p.y_velocity →
      (∀ q ∈ l1, ¬ landCond r pb q) →
      collideLoop r pb p (l1 ++ pl :: l2) = collideLoop r pb p (l1 ++ [pl]) ∧
      (collideLoop r pb p (l1 ++ pl :: l2)).pos_y = (pl.rect.top : ℚ) - 15 ∧
      (collideLoop r pb p (l1 ++ pl :: l2)).y_velocity = 0 ∧
      (collideLoop r pb p (l1 ++ pl :: l2)).is_grounded = true := by
  intro l1
  induction l1 with
  | nil =>
    intro p hv _
    have ht : topCond r pb p pl := (topCond_iff r pb p pl).2 ⟨hl, hv⟩
    have e1 : collideLoop r pb p ([] ++ pl :: l2) =
        { p with pos_y := (pl.rect.top : ℚ) - (PLAYER_SIZE : ℚ), y_velocity := 0,
                 is_grounded := true } := by
      simp only [List.nil_append, collideLoop, ht, if_true]
    have e2 : collideLoop r pb p ([] ++ [pl]) =
        { p with pos_y := (pl.rect.top : ℚ) - (PLAYER_SIZE : ℚ), y_velocity := 0,
                 is_grounded := true } := by
      simp only [List.nil_append, collideLoop, ht, if_true]
    rw [e1, e2]
    refine ⟨rfl, ?_, rfl, rfl⟩
    norm_num [PLAYER_SIZE]
  | cons q l1' ih =>
    intro p hv hnl
    have htq : ¬ topCond r pb p q := fun hc =>
      hnl q (List.mem_cons_self q l1') ((topCond_iff r pb p q).1 hc).1
    have hkeep := collideBody_keeps_y r p q (by linarith)
    have hrest := ih (collideBody r p q) (hkeep.2.1 ▸ hv)
      (fun x hx => hnl x (List.mem_cons_of_mem q hx))
    simp only [List.cons_append, collideLoop, htq, if_false]
    exact hrest

/-- C2: for a player falling (y_velocity positive), the collision resolver
lands exactly on the first platform in iteration order whose top edge the
swept bottom crossed while horizontally overlapping: it snaps position y to
platform top minus the player size, zeroes y_velocity, sets is_grounded,
and checks no later platform that frame; when no platform satisfies the
landing condition, position y and y_velocity are unchanged and is_grounded
ends the pass false. -/
theorem collision_landing_characterization (p : Player) (platforms : List Platform)
    (hvy : 0 < p.y_velocity) :
    (∀ l1 pl l2, platforms = l1 ++ pl :: l2 →
      (∀ q ∈ l1, ¬ landCond (playerRect p) (((playerRect p).bottom : ℚ) - p.y_velocity) q) →
      landCond (playerRect p) (((playerRect p).bottom : ℚ) - p.y_velocity) pl →
      handle_collisions p platforms = handle_collisions p (l1 ++ [pl]) ∧
      (handle_collisions p platforms).pos_y = (pl.rect.top : ℚ) - 15 ∧
      (handle_collisions p platforms).y_velocity = 0 ∧
      (handle_collisions p platforms).is_grounded = true) ∧
    ((∀ q ∈ platforms,
        ¬ landCond (playerRect p) (((playerRect p).bottom : ℚ) - p.y_velocity) q) →
      (handle_collisions p platforms).pos_y = p.pos_y ∧
      (handle_collisions p platforms).y_velocity = p.y_velocity ∧
      (handle_collisions p platforms).is_grounded = false) := by
  have hrect : playerRect { p with is_grounded := false } = playerRect p := rfl
  constructor
  · intro l1 pl l2 hsplit hno hl
    subst hsplit
    unfold handle_collisions
    simp only [hrect]
    exact collideLoop_land (playerRect p) _ pl l2 hl l1 { p with is_grounded := false } hvy hno
  · intro hno
    unfold handle_collisions
    simp only [hrect]
    exact collideLoop_no_land (playerRect p) _ platforms { p with is_grounded := false } hvy hno

lemma coinLoop_fst (r : PRect) : ∀ (cs : List Coin) (s : ℕ),
    (coinLoop r cs s).1 = cs.map (fun c =>
      if !c.collected && r.colliderect c.rect then { c with collected := true } else c) := by
  intro cs
  induction cs with
  | nil => intro s; rfl
  | cons c cs ih =>
    intro s
    rcases hc : c.collected <;> rcases hr : r.colliderect c.rect <;>
      simp [coinLoop, hc, hr, ih]

lemma coinLoop_snd (r : PRect) : ∀ (cs : List Coin) (s : ℕ),
    (coinLoop r cs s).2 =
      s + (cs.filter (fun c => !c.collected && r.colliderect c.rect)).length := by
  intro cs
  induction cs with
  | nil => intro s; rfl
  | cons c cs ih =>
    intro s
    rcases hc : c.collected <;> rcases hr : r.colliderect c.rect <;>
      simp [coinLoop, hc, hr, ih] <;> omega

lemma countCollected_map (r : PRect) (cs : List Coin) :
    countCollected (cs.map (fun c =>
      if !c.collected && r.colliderect c.rect then { c with collected := true } else c)) =
    countCollected cs + (cs.filter (fun c => !c.collected && r.colliderect c.rect)).length := by
  induction cs with
  | nil => rfl
  | cons c cs ih =>
    rcases hc : c.collected <;> rcases hr : r.colliderect c.rect <;>
      simp [countCollected, List.filter_cons, hc, hr] at ih ⊢ <;> omega

lemma forall₂_collected_step (r : PRect) (cs : List Coin) :
    List.Forall₂ (fun c d => c.collected = true → d.collected = true) cs
      (cs.map (fun c =>
        if !c.collected && r.colliderect c.rect then { c with collected := true } else c)) := by
  induction cs with
  | nil => exact List.Forall₂.nil
  | cons c cs ih =>
    refine List.Forall₂.cons ?_ ih
    rcases hc : c.collected <;> rcases hr : r.colliderect c.rect <;> simp [hc, hr]

lemma forall₂_collected_trans {l1 l2 l3 : List Coin}
    (h12 : List.Forall₂ (fun c d => c.collected = true → d.collected = true) l1 l2)
    (h23 : List.Forall₂ (fun c d => c.collected = true → d.collected = true) l2 l3) :
    List.Forall₂ (fun c d => c.collected = true → d.collected = true) l1 l3 := by
  induction h12 generalizing l3 with
  | nil => cases h23; exact List.Forall₂.nil
  | cons h t ih =>
    cases h23 with
    | cons h2 t2 => exact List.Forall₂.cons (fun hc => h2 (h hc)) (ih t2)

lemma hcc_inv (p : Player) (cs : List Coin) (s : ℕ) (h : s = countCollected cs) :
    (handle_coin_collection p cs s).2 = countCollected (handle_coin_collection p cs s).1 := by
  unfold handle_coin_collection
  rw [coinLoop_snd, coinLoop_fst, countCollected_map, h]

lemma runCoinFrames_inv : ∀ (ps : List Player) (cs : List Coin) (s : ℕ),
    s = countCollected cs →
    (runCoinFrames ps (cs, s)).2 = countCollected (runCoinFrames ps (cs, s)).1 := by
  intro ps
  induction ps with
  | nil => intro cs s h; simpa [runCoinFrames] using h
  | cons p ps ih =>
    intro cs s h
    have hstep := hcc_inv p cs s h
    have := ih (handle_coin_collection p cs s).1 (handle_coin_collection p cs s).2 hstep
    simpa [runCoinFrames] using this

lemma runCoinFrames_mono : ∀ (ps : List Player) (cs : List Coin) (s : ℕ),
    List.Forall₂ (fun c d => c.collected = true → d.collected = true) cs
      (runCoinFrames ps (cs, s)).1 := by
  intro ps
  induction ps with
  | nil =>
    intro cs s
    exact List.forall₂_same.2 (fun c _ hc => hc)
  | cons p ps ih =>
    intro cs s
    have hstep : List.Forall₂ (fun c d => c.collected = true → d.collected = true) cs
        (handle_coin_collection p cs s).1 := by
      unfold handle_coin_collection
      rw [coinLoop_fst]
      exact forall₂_collected_step (playerRect p) cs
    have hrest := ih (handle_coin_collection p cs s).1 (handle_coin_collection p cs s).2
    refine forall₂_collected_trans hstep ?_
    simpa [runCoinFrames] using hrest

/-- C9: a coin collection pass increments the score by exactly the number
of uncollected coins whose rectangle intersects the player rectangle this
frame, collected flags only ever go from false to true (never back), the
session starts with score 0 equal to the count of collected coins, and
along any sequence of frames the score stays equal to the number of
collected coins. -/
theorem coin_score_invariant (p : Player) (ps : List Player) (coins : List Coin) (score : ℕ) :
    (handle_coin_collection p coins score).2 =
      score + (coins.filter (fun c => !c.collected && (playerRect p).colliderect c.rect)).length ∧
    List.Forall₂ (fun c d => c.collected = true → d.collected = true) coins
      (handle_coin_collection p coins score).1 ∧
    init_state.score = countCollected init_state.coins ∧
    (score = countCollected coins →
      (runCoinFrames ps (coins, score)).2 = countCollected (runCoinFrames ps (coins, score)).1) ∧
    List.Forall₂ (fun c d => c.collected = true → d.collected = true) coins
      (runCoinFrames ps (coins, score)).1 := by
  refine ⟨?_, ?_, by decide, runCoinFrames_inv ps coins score, runCoinFrames_mono ps coins score⟩
  · unfold handle_coin_collection
    rw [coinLoop_snd]
  · unfold handle_coin_collection
    rw [coinLoop_fst]
    exact forall₂_collected_step (playerRect p) coins

lemma move_player_hp (p : Player) (keys : Keys) (now : ℤ) :
    (move_player p keys now).hp = p.hp := by
  simp [move_player, apply_ite Player.hp]

lemma apply_physics_hp (p : Player) : (apply_physics p).hp = p.hp := by
  simp [apply_physics, apply_ite Player.hp]

lemma collideBody_hp (r : PRect) (p : Player) (pl : Platform) :
    (collideBody r p pl).hp = p.hp := by
  simp [collideBody, apply_ite Player.hp]

lemma collideLoop_hp (r : PRect) (pb : ℚ) :
    ∀ (ps : List Platform) (p : Player), (collideLoop r pb p ps).hp = p.hp := by
  intro ps
  induction ps with
  | nil => intro p; rfl
  | cons pl rest ih =>
    intro p
    by_cases ht : topCond r pb p pl
    · simp [collideLoop, ht]
    · simp [collideLoop, ht, ih, collideBody_hp]

lemma handle_collisions_hp (p : Player) (platforms : List Platform) :
    (handle_collisions p platforms).hp = p.hp := by
  unfold handle_collisions
  exact collideLoop_hp _ _ platforms _

lemma constrain_hp (p : Player) : (constrain_player_to_world p).hp = p.hp := by
  simp [constrain_player_to_world, apply_ite Player.hp]

lemma invincibility_reset_hp (p : Player) (now : ℤ) :
    (invincibility_reset p now).hp = p.hp := by
  simp [invincibility_reset, apply_ite Player.hp]

lemma handle_damage_hp (p : Player) (amount now : ℤ) (hhp : 0 ≤ p.hp) (ha : 0 ≤ amount) :
    0 ≤ (handle_damage p amount now).hp ∧ (handle_damage p amount now).hp ≤ p.hp := by
  unfold handle_damage
  by_cases hi : p.is_invincible = true
  · constructor <;> simp [hi] <;> omega
  · by_cases hneg : p.hp - amount < 0
    · constructor <;> simp [hi, hneg] <;> omega
    · constructor <;> simp [hi, hneg] <;> omega

lemma bricksLoop_hp (r : PRect) (now : ℤ) :
    ∀ (bricks : List DamageBrick) (p : Player), 0 ≤ p.hp →
      (∀ b ∈ bricks, 0 ≤ b.damage) →
      0 ≤ (bricksLoop r now p bricks).hp ∧ (bricksLoop r now p bricks).hp ≤ p.hp := by
  intro bricks
  induction bricks with
  | nil => intro p hhp _; exact ⟨hhp, le_refl _⟩
  | cons b bs ih =>
    intro p hhp hball
    have hb := hball b (List.mem_cons_self b bs)
    by_cases hc : r.colliderect b.rect = true
    · have hd := handle_damage_hp p b.damage now hhp hb
      have hrest := ih (handle_damage p b.damage now) hd.1
        (fun x hx => hball x (List.mem_cons_of_mem b hx))
      simp only [bricksLoop, hc, if_true]
      exact ⟨hrest.1, hrest.2.trans hd.2⟩
    · have hrest := ih p hhp (fun x hx => hball x (List.mem_cons_of_mem b hx))
      simp only [bricksLoop, hc, if_false]
      exact hrest

lemma handle_damage_bricks_hp (p : Player) (bricks : List DamageBrick) (now : ℤ)
    (hhp : 0 ≤ p.hp) (hball : ∀ b ∈ bricks, 0 ≤ b.damage) :
    0 ≤ (handle_damage_bricks p bricks now).hp ∧ (handle_damage_bricks p bricks now).hp ≤ p.hp := by
  unfold handle_damage_bricks
  exact bricksLoop_hp _ _ bricks p hhp hball

lemma stepFrame_hp (platforms : List Platform) (keys : Keys) (now : ℤ) (s : GState)
    (hhp : 0 ≤ s.player.hp) :
    0 ≤ (stepFrame platforms keys now s).player.hp ∧
    (stepFrame platforms keys now s).player.hp ≤ s.player.hp := by
  unfold stepFrame
  dsimp only
  by_cases hgo : s.game_over = true
  · simp only [hgo, if_true]
    exact ⟨hhp, le_refl _⟩
  · simp only [hgo, Bool.false_eq_true, if_false]
    have hchain : (constrain_player_to_world
        (handle_collisions (apply_physics (move_player s.player keys now)) platforms)).hp
        = s.player.hp := by
      rw [constrain_hp, handle_collisions_hp, apply_physics_hp, move_player_hp]
    by_cases hdead : (constrain_player_to_world
        (handle_collisions (apply_physics (move_player s.player keys now)) platforms)).hp ≤ 0
    · simp only [hdead, if_true]
      constructor
      · show 0 ≤ (constrain_player_to_world
            (handle_collisions (apply_physics (move_player s.player keys now)) platforms)).hp
        rw [hchain]
        exact hhp
      · show (constrain_player_to_world
            (handle_collisions (apply_physics (move_player s.player keys now)) platforms)).hp
            ≤ s.player.hp
        rw [hchain]
    · simp only [hdead, if_false]
      have hball : ∀ b ∈ damage_bricks, 0 ≤ b.damage := by decide
      have hbr := handle_damage_bricks_hp (constrain_player_to_world
        (handle_collisions (apply_physics (move_player s.player keys now)) platforms))
        damage_bricks now (by rw [hchain]; exact hhp) hball
      rw [hchain] at hbr
      constructor
      · show 0 ≤ (invincibility_reset (handle_damage_bricks (constrain_player_to_world
            (handle_collisions (apply_physics (move_player s.player keys now)) platforms))
            damage_bricks now) now).hp
        rw [invincibility_reset_hp]
        exact hbr.1
      · show (invincibility_reset (handle_damage_bricks (constrain_player_to_world
            (handle_collisions (apply_physics (move_player s.player keys now)) platforms))
            damage_bricks now) now).hp ≤ s.player.hp
        rw [invincibility_reset_hp]
        exact hbr.2

/-- C10: along every session, hp starts at 100, every frame step leaves it
unchanged or lower (handle_damage via the brick pass is the only mutator
and only lowers it, floored at 0), so every reachable state satisfies
0 ≤ hp ≤ 100. -/
theorem hp_monotone_bounds (platforms : List Platform) (s : GState)
    (h : Reachable platforms s) :
    0 ≤ s.player.hp ∧ s.player.hp ≤ 100 ∧
    ∀ (keys : Keys) (now : ℤ),
      (stepFrame platforms keys now s).player.hp ≤ s.player.hp := by
  induction h with
  | init =>
    refine ⟨by decide, by decide, ?_⟩
    intro keys now
    exact (stepFrame_hp platforms keys now init_state (by decide)).2
  | step keys now hr ih =>
    obtain ⟨h0, h100, _⟩ := ih
    have hs := stepFrame_hp platforms keys now _ h0
    refine ⟨hs.1, hs.2.trans h100, ?_⟩
    intro keys2 now2
    exact (stepFrame_hp platforms keys2 now2 _ hs.1).2

/-- Witness for C10 at the initial state and one concrete frame step. -/
theorem hp_monotone_bounds_witness :
    0 ≤ init_state.player.hp ∧ init_state.player.hp ≤ 100 ∧
    (stepFrame [] noKeys 0 init_state).player.hp ≤ init_state.player.hp := by
  obtain ⟨h1, h2, h3⟩ := hp_monotone_bounds [] init_state Reachable.init
  exact ⟨h1, h2, h3 noKeys 0⟩

lemma runFrames_reachable (platforms : List Platform) :
    ∀ (inputs : List (Keys × ℤ)) (s : GState), Reachable platforms s →
      Reachable platforms (runFrames platforms inputs s) := by
  intro inputs
  induction inputs with
  | nil => intro s h; exact h
  | cons kt rest ih =>
    intro s h
    obtain ⟨k, t⟩ := kt
    exact ih _ (Reachable.step k t h)

set_option maxRecDepth 100000 in
/-- C1 counterexample: a session state reachable in 41 frames on a level
with one wall at x = 300 (dash right into the wall on frame 30) in which
the player is still dashing but the side collision has zeroed x_velocity,
so the magnitude of the horizontal velocity is 0, not dash_speed = 9. -/
theorem dash_invariant_counterexample :
    Reachable c1_platforms c1_bad ∧ c1_bad.player.is_dashing = true ∧
    c1_bad.player.x_velocity = 0 ∧ c1_bad.player.dash_speed = 9 := by
  refine ⟨runFrames_reachable c1_platforms c1_inputs init_state Reachable.init, ?_⟩
  decide

/-- C1 amended: while is_dashing is set, gravity is never applied by the
physics step, and the movement and physics steps preserve the horizontal
velocity magnitude dash_speed = 9 (a trigger establishes it); the original
claim fails only because the collision resolver and the boundary clamp can
zero x_velocity while is_dashing stays true. -/
theorem dash_invariant_amended (p : Player) (keys : Keys) (now : ℤ)
    (hds : p.dash_speed = 9) (hinv : p.is_dashing = true → |p.x_velocity| = 9) :
    ((move_player p keys now).is_dashing = true →
      |(move_player p keys now).x_velocity| = 9) ∧
    ((apply_physics p).is_dashing = true → |(apply_physics p).x_velocity| = 9) ∧
    (p.is_dashing = true → (apply_physics p).y_velocity = p.y_velocity) := by
  refine ⟨?_, ?_, ?_⟩
  · intro htr
    by_cases hd : p.is_dashing = true
    · have hx : (move_player p keys now).x_velocity = p.x_velocity := by
        simp [move_player, hd]
      rw [hx]
      exact hinv hd
    · unfold move_player at htr ⊢
      simp only [hd, Bool.false_eq_true, if_false] at htr ⊢
      by_cases hls : keys.lshift = true
      case neg =>
        exfalso
        simp [hls, hd, apply_ite Player.is_dashing] at htr
      case pos =>
        by_cases hc : ¬p.dash_key_pressed = true ∧ now - p.last_dash ≥ p.dash_cooldown
        case neg =>
          exfalso
          simp [hls, hc, hd, apply_ite Player.is_dashing] at htr
          exact hc ⟨by simp [htr.1.1], htr.1.2⟩
        case pos =>
          obtain ⟨hc1, hc2⟩ := hc
          by_cases hrd : keys.right = true ∨ keys.d = true
          case pos =>
            simp [hls, hc1, hc2, hrd, hds, apply_ite Player.x_velocity]
            all_goals norm_num
          case neg =>
            by_cases hla : keys.left = true ∨ keys.a = true
            case pos =>
              simp [hls, hc1, hc2, hrd, hla, hds, apply_ite Player.x_velocity]
              all_goals norm_num
            case neg =>
              exfalso
              simp [hls, hc1, hc2, hrd, hla, hd, apply_ite Player.is_dashing] at htr
  · intro htr
    by_cases hd : p.is_dashing = true
    · by_cases htm : p.dash_timer - 1 ≤ 0
      · exfalso
        simp [apply_physics, hd, htm, apply_ite Player.is_dashing] at htr
      · have hx : (apply_physics p).x_velocity = p.x_velocity := by
          simp [apply_physics, hd, htm, apply_ite Player.x_velocity]
        rw [hx]
        exact hinv hd
    · exfalso
      simp [apply_physics, hd, apply_ite Player.is_dashing] at htr
  · intro hd
    simp [apply_physics, hd, apply_ite Player.y_velocity]

/-- Witness for the amended C1 at a mid-dash player with velocity 9. -/
theorem dash_invariant_amended_witness :
    |(move_player { init_player with is_dashing := true, x_velocity := 9, dash_timer := 5 }
        noKeys 0).x_velocity| = 9 ∧
    |(apply_physics { init_player with is_dashing := true, x_velocity := 9, dash_timer := 5
        }).x_velocity| = 9 ∧
    (apply_physics { init_player with is_dashing := true, x_velocity := 9, dash_timer := 5
        }).y_velocity =
      ({ init_player with is_dashing := true, x_velocity := 9, dash_timer := 5 }
        : Player).y_velocity := by
  have h := dash_invariant_amended
    { init_player with is_dashing := true, x_velocity := 9, dash_timer := 5 }
    noKeys 0 rfl (fun _ => by norm_num)
  exact ⟨h.1 (by decide), h.2.1 (by decide), h.2.2 rfl⟩

/-- Witness for C2 on a falling player over three platforms where the
second is the first landing match. -/
theorem collision_landing_witness :
    handle_collisions { init_player with y_velocity := 5 }
        [⟨⟨1000, 1000, 50, 50⟩⟩, ⟨⟨190, 212, 100, 20⟩⟩, ⟨⟨0, 0, 10, 10⟩⟩] =
      handle_collisions { init_player with y_velocity := 5 }
        [⟨⟨1000, 1000, 50, 50⟩⟩, ⟨⟨190, 212, 100, 20⟩⟩] ∧
    (handle_collisions { init_player with y_velocity := 5 }
        [⟨⟨1000, 1000, 50, 50⟩⟩, ⟨⟨190, 212, 100, 20⟩⟩, ⟨⟨0, 0, 10, 10⟩⟩]).pos_y = 197 ∧
    (handle_collisions { init_player with y_velocity := 5 }
        [⟨⟨1000, 1000, 50, 50⟩⟩, ⟨⟨190, 212, 100, 20⟩⟩, ⟨⟨0, 0, 10, 10⟩⟩]).y_velocity = 0 ∧
    (handle_collisions { init_player with y_velocity := 5 }
        [⟨⟨1000, 1000, 50, 50⟩⟩, ⟨⟨190, 212, 100, 20⟩⟩, ⟨⟨0, 0, 10, 10⟩⟩]).is_grounded
      = true := by
  have h := (collision_landing_characterization { init_player with y_velocity := 5 }
    [⟨⟨1000, 1000, 50, 50⟩⟩, ⟨⟨190, 212, 100, 20⟩⟩, ⟨⟨0, 0, 10, 10⟩⟩] (by norm_num)).1
    [⟨⟨1000, 1000, 50, 50⟩⟩] ⟨⟨190, 212, 100, 20⟩⟩ [⟨⟨0, 0, 10, 10⟩⟩]
    rfl (by decide) (by decide)
  obtain ⟨h1, h2, h3, h4⟩ := h
  refine ⟨?_, ?_, h3, h4⟩
  · simpa using h1
  · rw [h2]
    norm_num [PRect.top]

/-- Witness for C8: a dash triggered at clock 600 from the initial player. -/
theorem dash_cooldown_and_trigger_witness :
    (move_player init_player dashRightKeys 600).dash_timer = 15 ∧
    ((move_player init_player dashRightKeys 600).x_velocity = 9 ∨
      (move_player init_player dashRightKeys 600).x_velocity = -9) ∧
    (move_player init_player dashRightKeys 600).last_dash = 600 := by
  have h := (dash_cooldown_and_trigger init_player dashRightKeys 600 rfl rfl).2
    rfl (by decide)
  exact ⟨h.2.2.2.2.1, h.2.2.2.2.2.1, h.2.2.2.2.2.2⟩

lemma run_damage_append (bricks : List DamageBrick) :
    ∀ (l1 l2 : List ℤ) (p : Player),
      run_damage bricks (l1 ++ l2) p = run_damage bricks l2 (run_damage bricks l1 p) := by
  intro l1
  induction l1 with
  | nil => intro l2 p; rfl
  | cons t ts ih => intro l2 p; exact ih l2 (damage_frame bricks t p)

set_option maxRecDepth 20000 in
lemma c5_ticks_split :
    c5_ticks = c5_chunk 0 30 ++ (c5_chunk 30 60 ++ (c5_chunk 60 90 ++
      (c5_chunk 90 120 ++ (c5_chunk 120 150 ++ c5_chunk 150 177)))) := by decide

set_option maxRecDepth 20000 in
lemma c5_chunk60_split : c5_chunk 0 60 = c5_chunk 0 30 ++ c5_chunk 30 60 := by decide

set_option maxRecDepth 20000 in
lemma c5_chunk120_split :
    c5_chunk 0 120 = c5_chunk 0 30 ++ (c5_chunk 30 60 ++ (c5_chunk 60 90 ++ c5_chunk 90 120)) := by
  decide

set_option maxRecDepth 60000 in
lemma c5_run30 : run_damage damage_bricks (c5_chunk 0 30) c5_player =
    { c5_player with hp := 75, is_invincible := true } := by decide

set_option maxRecDepth 60000 in
lemma c5_run60 : run_damage damage_bricks (c5_chunk 30 60)
    { c5_player with hp := 75, is_invincible := true } = { c5_player with hp := 75 } := by decide

set_option maxRecDepth 60000 in
lemma c5_run90 : run_damage damage_bricks (c5_chunk 60 90) { c5_player with hp := 75 } =
    { c5_player with hp := 50, is_invincible := true, last_damage_time := 1020 } := by decide

set_option maxRecDepth 60000 in
lemma c5_run120 : run_damage damage_bricks (c5_chunk 90 120)
    { c5_player with hp := 50, is_invincible := true, last_damage_time := 1020 } =
    { c5_player with hp := 50, is_invincible := false, last_damage_time := 1020 } := by decide

set_option maxRecDepth 60000 in
lemma c5_run150 : run_damage damage_bricks (c5_chunk 120 150)
    { c5_player with hp := 50, is_invincible := false, last_damage_time := 1020 } =
    { c5_player with hp := 25, is_invincible := true, last_damage_time := 2040 } := by decide

set_option maxRecDepth 60000 in
lemma c5_run177 : run_damage damage_bricks (c5_chunk 150 177)
    { c5_player with hp := 25, is_invincible := true, last_damage_time := 2040 } =
    { c5_player with hp := 25, is_invincible := true, last_damage_time := 2040 } := by decide

lemma c5_final : run_damage damage_bricks c5_ticks c5_player =
    { c5_player with hp := 25, is_invincible := true, last_damage_time := 2040 } := by
  rw [c5_ticks_split, run_damage_append, c5_run30, run_damage_append, c5_run60,
    run_damage_append, c5_run90, run_damage_append, c5_run120, run_damage_append,
    c5_run150, c5_run177]

/-- Positions are untouched by the damage subsystem, so a brick overlapping
the player keeps overlapping across damage frames. -/
lemma damage_frame_pos (bricks : List DamageBrick) (t : ℤ) (p : Player) :
    (damage_frame bricks t p).pos_x = p.pos_x ∧ (damage_frame bricks t p).pos_y = p.pos_y := by
  unfold damage_frame handle_damage_bricks
  have hloop : ∀ (bs : List DamageBrick) (q : Player),
      (bricksLoop (playerRect p) t q bs).pos_x = q.pos_x ∧
      (bricksLoop (playerRect p) t q bs).pos_y = q.pos_y := by
    intro bs
    induction bs with
    | nil => intro q; exact ⟨rfl, rfl⟩
    | cons b rest ih =>
      intro q
      have hd : ∀ w : Player, (handle_damage w b.damage t).pos_x = w.pos_x ∧
          (handle_damage w b.damage t).pos_y = w.pos_y := by
        intro w
        constructor <;> simp [handle_damage, apply_ite Player.pos_x, apply_ite Player.pos_y]
      by_cases hc : (playerRect p).colliderect b.rect = true
      · simp only [bricksLoop, hc, if_true]
        exact ⟨(ih _).1.trans (hd q).1, (ih _).2.trans (hd q).2⟩
      · simp only [bricksLoop, hc, if_false]
        exact ih q

  constructor <;>
    simp [invincibility_reset, apply_ite Player.pos_x, apply_ite Player.pos_y, hloop]

/-- C5 counterexample: with hp 100, the session damage brick of damage 25,
and the brick overlapping the player for 3 seconds of 17 ms frames, the
final hp is 25, not 75: the 1 second invincibility window expires twice
within the interval, so damage lands three times. -/
theorem damage_scenario_counterexample :
    (run_damage damage_bricks c5_ticks c5_player).hp = 25 ∧
    ¬ (run_damage damage_bricks c5_ticks c5_player).hp = 75 ∧
    c5_player.hp = 100 ∧
    (playerRect c5_player).colliderect ⟨200, 150, 50, 50⟩ = true := by
  rw [c5_final]
  refine ⟨rfl, by decide, rfl, by decide⟩

/-- C5 amended: over 3 seconds of continuous overlap with the damage 25
brick, hp drops by 25 once per expiry of the 1000 ms invincibility window:
75 after the first second of frames, 50 after the second, and 25 at the end
of the 3 seconds, while the damage frames never move the player (so the
overlap indeed persists). -/
theorem damage_scenario_amended :
    (run_damage damage_bricks (c5_chunk 0 60) c5_player).hp = 75 ∧
    (run_damage damage_bricks (c5_chunk 0 120) c5_player).hp = 50 ∧
    (run_damage damage_bricks c5_ticks c5_player).hp = 25 ∧
    ∀ (t : ℤ) (p : Player),
      (damage_frame damage_bricks t p).pos_x = p.pos_x ∧
      (damage_frame damage_bricks t p).pos_y = p.pos_y := by
  refine ⟨?_, ?_, ?_, fun t p => damage_frame_pos damage_bricks t p⟩
  · rw [c5_chunk60_split, run_damage_append, c5_run30, c5_run60]
  · rw [c5_chunk120_split, run_damage_append, c5_run30, run_damage_append, c5_run60,
      run_damage_append, c5_run90, c5_run120]
  · rw [c5_final]

end Proofs

end Maturity
